import Mathlib

/-! Verification of cassandra-kubernetes-hostid.

A shallow embedding of `cassandra-kubernetes-hostid.go`.

* Go strings are modelled by Lean `String`s (Unicode text).  The only pattern the
  program compiles mentions ASCII characters only, so matching rune by rune and
  matching byte by byte agree.
* The collaborators the program talks to (the subprocess, the `regexp` package and
  the Kubernetes API server) are modelled explicitly: the subprocess by the result
  of its single run, the regular expression by a small syntax tree with a leftmost
  matcher, the API server by a store of JSON documents with RFC 7386 merge patch.
-/

set_option autoImplicit false

namespace HostId

/-! ## Errors and constants (source lines 37-42) -/

/-- Go `error` values the program can see: those it creates itself with
`errors.New`, those of `cmd.Run()` and those of the Kubernetes client. -/
inductive GoError where
  | errorString (msg : String)
  | execError (msg : String)
  | apiError (msg : String)
  deriving DecidableEq, Repr

def AnnotationsKey : String := "annotations"

def MetaDataKey : String := "metadata"

def NodetoolCommand : String := "info"

def UuidRegex : String :=
  "[a-fA-F0-9]{8}-[a-fA-F0-9]{4}-[a-fA-F0-9]{4}-[a-fA-F0-9]{4}-[a-fA-F0-9]{12}"

/-! ## The fragment of `regexp` that `UuidRegex` uses -/

/-- One character matcher: a bracket class of inclusive ranges, or a literal. -/
inductive Atom where
  | cls (ranges : List (Char × Char))
  | lit (c : Char)
  deriving DecidableEq, Repr

/-- An atom with an exact repetition count (`x{n}`; a bare atom has count one). -/
structure Piece where
  atom : Atom
  count : Nat
  braces : Bool
  deriving DecidableEq, Repr

/-- A compiled pattern of the fragment: a concatenation of pieces. -/
abbrev Regexp := List Piece

/-- Whether the atom matches the character. -/
def Atom.accepts : Atom → Char → Bool
  | .cls ranges, x => ranges.any (fun r => decide (r.1 ≤ x) && decide (x ≤ r.2))
  | .lit c, x => decide (x = c)

/-- Pattern text of a range inside a bracket class. -/
def rangeSource (r : Char × Char) : List Char :=
  if r.1 = r.2 then [r.1] else [r.1, '-', r.2]

/-- Pattern text of an atom. -/
def Atom.source : Atom → List Char
  | .cls ranges => '[' :: (ranges.map rangeSource).flatten ++ [']']
  | .lit c => [c]

/-- Pattern text of a piece. -/
def Piece.source (p : Piece) : List Char :=
  if p.braces then p.atom.source ++ '{' :: (Nat.repr p.count).data ++ ['}'] else p.atom.source

/-- Pattern text of a compiled pattern (`(*Regexp).String`). -/
def Regexp.source (re : Regexp) : String :=
  String.mk (re.map Piece.source).flatten

/-- The class `[a-fA-F0-9]`. -/
def hexClass : Atom := .cls [('a', 'f'), ('A', 'F'), ('0', '9')]

/-- Compiled `UuidRegex`: the value of `regexp.Compile(UuidRegex)` (source line 206). -/
def uuidRegex : Regexp :=
  [ ⟨hexClass, 8, true⟩, ⟨.lit '-', 1, false⟩,
    ⟨hexClass, 4, true⟩, ⟨.lit '-', 1, false⟩,
    ⟨hexClass, 4, true⟩, ⟨.lit '-', 1, false⟩,
    ⟨hexClass, 4, true⟩, ⟨.lit '-', 1, false⟩,
    ⟨hexClass, 12, true⟩ ]

/-- Consume exactly `n` characters accepted by `a`; give the consumed text and the rest. -/
def matchRep (a : Atom) : Nat → List Char → Option (List Char × List Char)
  | 0, s => some ([], s)
  | _ + 1, [] => none
  | n + 1, c :: s =>
    if a.accepts c then
      match matchRep a n s with
      | some (m, rest) => some (c :: m, rest)
      | none => none
    else none

/-- Match the pattern anchored at the start of the text; give the matched text. -/
def matchHere : Regexp → List Char → Option (List Char)
  | [], _ => some []
  | p :: ps, s =>
    match matchRep p.atom p.count s with
    | none => none
    | some (m, rest) =>
      match matchHere ps rest with
      | some m2 => some (m ++ m2)
      | none => none

/-- Leftmost match: try every start position from left to right. -/
def find (re : Regexp) : List Char → Option (List Char)
  | [] => matchHere re []
  | c :: s =>
    match matchHere re (c :: s) with
    | some m => some m
    | none => find re s

/-- Go `(*Regexp).FindString`: the text of the leftmost match, `""` when there is none. -/
def FindString (re : Regexp) (s : String) : String :=
  match find re s.data with
  | some m => String.mk m
  | none => ""

/-! ## The subprocess and identifier extraction -/

/-- Go builtin `len` on a string: its number of bytes (UTF-8). -/
def len (s : String) : Nat := s.utf8ByteSize

/-- What one run of an external command gives: the text captured from its standard
output and the result of `cmd.Run()`. -/
structure Run where
  stdout : String
  err : Option GoError
  deriving DecidableEq, Repr

/-- An operating system: running `name` with arguments gives a `Run`. -/
abbrev Exec := String → List String → Run

/-- Source lines 214-223. -/
def runCommand (exec : Exec) (name : String) (arg : List String) : String × Option GoError :=
  let cmd := exec name arg
  let stdOut := cmd.stdout
  let err := cmd.err
  if err ≠ none then
    (stdOut, err)
  else
    (stdOut, none)

/-- Source lines 201-212. -/
def getCassandraHostId (exec : Exec) (nodetool : String) : String × Option GoError :=
  let (nodetoolOutput, err) := runCommand exec nodetool [NodetoolCommand]
  if err ≠ none then
    ("", err)
  else
    let m := FindString uuidRegex nodetoolOutput
    if len m = 0 then
      ("", some (.errorString "couldn't fetch Cassandra host ID"))
    else
      (m, none)

/-- Source lines 197-199: `fmt.Sprintf("%v/%v", prefix, name)`. -/
def getAnnotationName (pfx : String) (name : String) : String :=
  pfx ++ "/" ++ name

/-! ## JSON documents and RFC 7386 merge patch -/

mutual
/-- A JSON value.  Numbers, booleans and arrays are kept as uninterpreted text:
merge patch treats them as atoms. -/
inductive Json where
  | null
  | str (s : String)
  | other (text : String)
  | obj (fields : Fields)
/-- The members of a JSON object, in document order. -/
inductive Fields where
  | nil
  | cons (key : String) (value : Json) (rest : Fields)
end

/-- The value of the first member named `k`. -/
def Fields.get (k : String) : Fields → Option Json
  | .nil => none
  | .cons key value rest => if key = k then some value else Fields.get k rest

/-- Set member `k` to `v`: in place when it is present, at the end otherwise. -/
def Fields.set (k : String) (v : Json) : Fields → Fields
  | .nil => .cons k v .nil
  | .cons key value rest =>
    if key = k then .cons key v rest else .cons key value (Fields.set k v rest)

/-- Remove every member named `k`. -/
def Fields.erase (k : String) : Fields → Fields
  | .nil => .nil
  | .cons key value rest =>
    if key = k then Fields.erase k rest else .cons key value (Fields.erase k rest)

/-- The members of a value; a value that is not an object has none
(RFC 7386: "if Target is not an Object: Target = {}"). -/
def Json.fields : Json → Fields
  | .obj fs => fs
  | _ => .nil

/-- Member `k` of a value, `none` when the value is not an object or has no such member. -/
def Json.member (k : String) (j : Json) : Option Json :=
  j.fields.get k

/-- The target handed to the recursive call of merge patch for an absent member. -/
def targetOf : Option Json → Json
  | some j => j
  | none => .null

mutual
/-- RFC 7386 `MergePatch(Target, Patch)`. -/
def mergePatch (target : Json) : Json → Json
  | .obj patchFields => .obj (mergeFields target.fields patchFields)
  | .null => .null
  | .str s => .str s
  | .other t => .other t
/-- The loop of `MergePatch` over the members of an object patch. -/
def mergeFields (target : Fields) : Fields → Fields
  | .nil => target
  | .cons name value rest =>
    match value with
    | .null => mergeFields (target.erase name) rest
    | .str s => mergeFields (target.set name (.str s)) rest
    | .other t => mergeFields (target.set name (.other t)) rest
    | .obj pfs =>
      mergeFields (target.set name (mergePatch (targetOf (target.get name)) (.obj pfs))) rest
end

/-! ## The Kubernetes client and the API server behind it -/

/-- A Go `map[string]string`: `none` is the nil map, `some l` a map holding the
entries of `l` (the first entry of a key is its value). -/
abbrev GoMap := Option (List (String × String))

/-- Go `v, ok := m[k]`: the zero value and `false` when `k` is not in the map, also
for the nil map. -/
def GoMap.index (m : GoMap) (k : String) : String × Bool :=
  match m with
  | none => ("", false)
  | some l =>
    match l.lookup k with
    | some v => (v, true)
    | none => ("", false)

/-- The part of `metav1.ObjectMeta` the program reads. -/
structure ObjectMeta where
  Name : String
  Namespace : String
  Annotations : GoMap

/-- The part of a StatefulSet object the program reads. -/
structure StatefulSet where
  ObjectMeta : ObjectMeta

/-- Go field promotion: `statefulSet.Name` is `statefulSet.ObjectMeta.Name`. -/
def StatefulSet.Name (s : StatefulSet) : String := s.ObjectMeta.Name

/-- The string-valued members of an object, as map entries. -/
def stringEntries : Fields → List (String × String)
  | .nil => []
  | .cons key (.str s) rest => (key, s) :: stringEntries rest
  | .cons _ _ rest => stringEntries rest

/-- Decoding of `metadata.annotations` of a stored document into the typed object:
the nil map when the member is absent or not an object. -/
def decodeAnnotations (doc : Json) : GoMap :=
  match doc.member MetaDataKey with
  | some meta =>
    match meta.member AnnotationsKey with
    | some (.obj fs) => some (stringEntries fs)
    | _ => none
  | none => none

/-- The patch types of the Kubernetes API (`api.PatchType`). -/
inductive PatchType where
  | JSONPatchType
  | MergePatchType
  | StrategicMergePatchType
  deriving DecidableEq, Repr

/-- A request sent to the API server. -/
inductive ApiCall where
  | get (ns : String) (name : String)
  | patch (ns : String) (name : String) (pt : PatchType) (data : Json)

/-- The client together with the API server it is connected to: the StatefulSet
documents by namespace and name, the server's decision to reject a patch
(admission, conflict, transport), and the requests sent so far. -/
structure Clientset where
  objects : String → String → Option Json
  reject : String → String → Json → Option GoError
  calls : List ApiCall

/-- Client method `StatefulSets(namespace).Get(name, opts)`: the object stored under
the name, decoded, with the name and namespace it was asked by; a not-found error when
there is none.  The request is recorded. -/
def StatefulSets.Get (client : Clientset) (ns : String) (name : String) :
    Except GoError StatefulSet × Clientset :=
  let client1 := { client with calls := client.calls ++ [ApiCall.get ns name] }
  match client.objects ns name with
  | none => (.error (.apiError ("statefulsets not found: " ++ name)), client1)
  | some doc =>
    (.ok ⟨⟨name, ns, decodeAnnotations doc⟩⟩, client1)

/-- Client method `StatefulSets(namespace).Patch(name, pt, data)`.  A merge patch that
the server accepts replaces the stored document by `mergePatch doc data`; a failed
request leaves the store as it was.  The request is recorded.  Other patch types are
outside this model and are refused. -/
def StatefulSets.Patch (client : Clientset) (ns : String) (name : String) (pt : PatchType)
    (data : Json) : Except GoError StatefulSet × Clientset :=
  let client1 := { client with calls := client.calls ++ [ApiCall.patch ns name pt data] }
  match client.objects ns name with
  | none => (.error (.apiError ("statefulsets not found: " ++ name)), client1)
  | some doc =>
    match pt with
    | .MergePatchType =>
      match client.reject ns name data with
      | some err => (.error err, client1)
      | none =>
        let doc1 := mergePatch doc data
        (.ok ⟨⟨name, ns, decodeAnnotations doc1⟩⟩,
          { client1 with
            objects := fun ns1 name1 =>
              if ns1 = ns ∧ name1 = name then some doc1 else client.objects ns1 name1 })
    | _ => (.error (.apiError "patch type not modelled"), client1)

/-! ## The annotation synchronizer (source lines 144-195) -/

/-- Go `fmt.Sprint` on string operands: their concatenation (a space is only added
between operands when neither is a string). -/
def Sprint (operands : List String) : String :=
  operands.foldl (fun acc s => acc ++ s) ""

/-- Source lines 144-159.  Logging is not modelled. -/
def FetchHostId (client : Clientset) (ns : String) (createdBy : String)
    (annotationsPrefix : String) (podName : String) : (String × Option GoError) × Clientset :=
  match StatefulSets.Get client ns createdBy with
  | (.error err, client1) => (("", some err), client1)
  | (.ok statefulSet, client1) =>
    let (hostId, ok) :=
      statefulSet.ObjectMeta.Annotations.index (getAnnotationName annotationsPrefix podName)
    if !ok then
      (("", some (.errorString (Sprint ["Host ID for", podName,
        "not present in annotations for StatefulSet", createdBy]))), client1)
    else
      ((hostId, none), client1)

/-- The patch document of source lines 176-179:
`patch[MetaDataKey][AnnotationsKey] = map[string]string{key: hostId}`. -/
def buildPatch (key : String) (hostId : String) : Json :=
  .obj (.cons MetaDataKey (.obj (.cons AnnotationsKey (.obj (.cons key (.str hostId) .nil)) .nil))
    .nil)

/-- Source lines 161-195.  Logging is not modelled; `json.Marshal` of a map of maps of
strings cannot fail, and the patch bytes are represented by the document they encode. -/
def PopulateHostId (client : Clientset) (exec : Exec) (nodetoolPath : String) (ns : String)
    (createdBy : String) (annotationsPrefix : String) (podName : String) :
    Option GoError × Clientset :=
  match getCassandraHostId exec nodetoolPath with
  | (_, some err) => (some err, client)
  | (hostId, none) =>
    match StatefulSets.Get client ns createdBy with
    | (.error err, client1) => (some err, client1)
    | (.ok statefulSet, client1) =>
      let patch := buildPatch (getAnnotationName annotationsPrefix podName) hostId
      match StatefulSets.Patch client1 ns statefulSet.Name .MergePatchType patch with
      | (.error err, client2) => (some err, client2)
      | (.ok _, client2) => (none, client2)

/-! ## Specification vocabulary -/

/-- A hexadecimal digit: a character of `[0-9a-fA-F]`. -/
def IsHexDigit (c : Char) : Prop :=
  ('0' ≤ c ∧ c ≤ '9') ∨ ('a' ≤ c ∧ c ≤ 'f') ∨ ('A' ≤ c ∧ c ≤ 'F')

/-- The UUID shape on characters: five groups of 8, 4, 4, 4 and 12 hexadecimal
digits, separated by hyphens. -/
def UuidShapedChars (u : List Char) : Prop :=
  ∃ g1 g2 g3 g4 g5 : List Char,
    u = g1 ++ '-' :: (g2 ++ '-' :: (g3 ++ '-' :: (g4 ++ '-' :: g5))) ∧
    g1.length = 8 ∧ g2.length = 4 ∧ g3.length = 4 ∧ g4.length = 4 ∧ g5.length = 12 ∧
    (∀ c ∈ g1, IsHexDigit c) ∧ (∀ c ∈ g2, IsHexDigit c) ∧ (∀ c ∈ g3, IsHexDigit c) ∧
    (∀ c ∈ g4, IsHexDigit c) ∧ (∀ c ∈ g5, IsHexDigit c)

/-- A UUID-shaped string. -/
def UuidShaped (u : String) : Prop := UuidShapedChars u.data

/-- The string `u` occurs in `s` starting at character position `i`. -/
def OccursAt (s : String) (i : Nat) (u : String) : Prop :=
  ∃ pre post : String, s = pre ++ u ++ post ∧ pre.length = i

/-- The text `s` contains a UUID-shaped substring. -/
def ContainsUuid (s : String) : Prop :=
  ∃ i u, OccursAt s i u ∧ UuidShaped u

/-- The texts a compiled pattern matches in full. -/
def Lang : Regexp → List Char → Prop
  | [], m => m = []
  | p :: ps, m =>
    ∃ m1 m2, m = m1 ++ m2 ∧ m1.length = p.count ∧
      (∀ c ∈ m1, p.atom.accepts c = true) ∧ Lang ps m2

instance (c : Char) : Decidable (IsHexDigit c) := by
  unfold IsHexDigit
  exact inferInstance

/-- The `metadata` member of a document, as a merge-patch target. -/
def metadataOf (doc : Json) : Json := targetOf (doc.member MetaDataKey)

/-- The `metadata.annotations` member of a document, as a merge-patch target. -/
def annotationsOf (doc : Json) : Json := targetOf ((metadataOf doc).member AnnotationsKey)

/-- The map holds the key `k` with value `v`. -/
def GoMap.Has (m : GoMap) (k v : String) : Prop :=
  ∃ l, m = some l ∧ l.lookup k = some v

/-- The key `k` is absent from the map; so it is from the nil map and the empty map. -/
def GoMap.Lacks (m : GoMap) (k : String) : Prop :=
  m = none ∨ ∃ l, m = some l ∧ l.lookup k = none

/-! ## Concrete runs and stores -/

/-- A run of the diagnostic command that ends without error and prints the
scenario line of the specification. -/
def scenarioExec : Exec :=
  fun _ _ => ⟨"ID : 1b4e28ba-2fa1-11d2-883f-0016d3cca427 is alive", none⟩

/-- A run that prints the scenario line but ends with a non-zero exit status. -/
def failedExec : Exec :=
  fun _ _ => ⟨"ID : 1b4e28ba-2fa1-11d2-883f-0016d3cca427 is alive",
    some (.execError "exit status 1")⟩

/-- A run without error whose output holds another UUID before the scenario line. -/
def twoUuidExec : Exec :=
  fun _ _ => ⟨"Token : 0a1b2c3d-0000-4000-8000-00000000beef\n" ++
    "1b4e28ba-2fa1-11d2-883f-0016d3cca427" ++ " is alive", none⟩

/-- A run without error that prints nothing. -/
def silentExec : Exec := fun _ _ => ⟨"", none⟩

/-- A run that could not be started and printed nothing. -/
def notStartedExec : Exec :=
  fun _ _ => ⟨"", some (.execError "fork/exec /usr/bin/nodetool: no such file or directory")⟩

/-- A stored StatefulSet document with one annotation of another owner. -/
def demoDoc : Json :=
  .obj (.cons "metadata"
      (.obj (.cons "name" (.str "cassandra") (.cons "namespace" (.str "default")
        (.cons "annotations" (.obj (.cons "owner" (.str "storage-team") .nil)) .nil))))
    (.cons "spec" (.obj (.cons "replicas" (.other "3") .nil)) .nil))

/-- An API server that holds `demoDoc` as StatefulSet `cassandra` of namespace
`default`, accepts every patch and has not been called yet. -/
def demoClient : Clientset :=
  { objects := fun ns name => if ns = "default" ∧ name = "cassandra" then some demoDoc else none
    reject := fun _ _ _ => none
    calls := [] }

/-- A stored StatefulSet document whose annotation for pod `pod-0` is the empty string. -/
def blankDoc : Json :=
  .obj (.cons "metadata"
    (.obj (.cons "annotations" (.obj (.cons "cassandra/pod-0" (.str "") .nil)) .nil)) .nil)

/-- An API server that holds `blankDoc` as StatefulSet `cassandra` of namespace
`default`. -/
def blankClient : Clientset :=
  { objects := fun ns name => if ns = "default" ∧ name = "cassandra" then some blankDoc else none
    reject := fun _ _ _ => none
    calls := [] }

/-! ## Lemmas -/

theorem matchRep_eq_some (a : Atom) (n : Nat) (s m r : List Char) :
    matchRep a n s = some (m, r) ↔
      s = m ++ r ∧ m.length = n ∧ ∀ c ∈ m, a.accepts c = true := by
  induction n generalizing s m with
  | zero =>
    simp only [matchRep, Option.some.injEq, Prod.mk.injEq, List.length_eq_zero]
    constructor
    · rintro ⟨rfl, rfl⟩; simp
    · rintro ⟨h1, rfl, -⟩; simp [h1]
  | succ n ih =>
    cases s with
    | nil =>
      simp only [matchRep]
      constructor
      · intro h; cases h
      · rintro ⟨h1, h2, -⟩
        have h3 : m = [] := by
          cases m with
          | nil => rfl
          | cons x xs => cases h1
        rw [h3] at h2; cases h2
    | cons c s =>
      simp only [matchRep]
      by_cases hc : a.accepts c = true
      · rw [if_pos hc]
        constructor
        · intro h
          cases hm : matchRep a n s with
          | none => rw [hm] at h; cases h
          | some q =>
            obtain ⟨m0, r0⟩ := q
            rw [hm] at h
            simp only [Option.some.injEq, Prod.mk.injEq] at h
            obtain ⟨rfl, rfl⟩ := h
            obtain ⟨h1, h2, h3⟩ := (ih s m0).1 hm
            refine ⟨by rw [h1]; rfl, by simp [h2], ?_⟩
            intro x hx
            rcases List.mem_cons.1 hx with rfl | hx
            · exact hc
            · exact h3 x hx
        · rintro ⟨h1, h2, h3⟩
          cases m with
          | nil => cases h2
          | cons x xs =>
            simp only [List.cons_append, List.cons.injEq] at h1
            obtain ⟨rfl, rfl⟩ := h1
            have hm : matchRep a n (xs ++ r) = some (xs, r) :=
              (ih (xs ++ r) xs).2 ⟨rfl, by simpa using h2,
                fun y hy => h3 y (List.mem_cons_of_mem _ hy)⟩
            rw [hm]
      · rw [if_neg hc]
        constructor
        · intro h; cases h
        · rintro ⟨h1, h2, h3⟩
          cases m with
          | nil => cases h2
          | cons x xs =>
            simp only [List.cons_append, List.cons.injEq] at h1
            obtain ⟨rfl, -⟩ := h1
            exact absurd (h3 c (List.mem_cons_self _ _)) hc

theorem matchHere_eq_some (re : Regexp) (s m : List Char) :
    matchHere re s = some m ↔ Lang re m ∧ ∃ r, s = m ++ r := by
  induction re generalizing s m with
  | nil =>
    simp only [matchHere, Lang, Option.some.injEq]
    constructor
    · rintro rfl; exact ⟨rfl, s, rfl⟩
    · rintro ⟨rfl, -⟩; rfl
  | cons p ps ih =>
    simp only [matchHere, Lang]
    constructor
    · intro h
      cases h1 : matchRep p.atom p.count s with
      | none => rw [h1] at h; cases h
      | some q =>
        obtain ⟨m1, rest⟩ := q
        rw [h1] at h
        simp only at h
        cases h2 : matchHere ps rest with
        | none => rw [h2] at h; cases h
        | some m2 =>
          rw [h2] at h
          simp only [Option.some.injEq] at h
          subst h
          obtain ⟨e1, e2, e3⟩ := (matchRep_eq_some _ _ _ _ _).1 h1
          obtain ⟨l2, r, e4⟩ := (ih rest m2).1 h2
          exact ⟨⟨m1, m2, rfl, e2, e3, l2⟩, r, by rw [e1, e4, List.append_assoc]⟩
    · rintro ⟨⟨m1, m2, rfl, e2, e3, l2⟩, r, rfl⟩
      have h1 : matchRep p.atom p.count (m1 ++ m2 ++ r) = some (m1, m2 ++ r) :=
        (matchRep_eq_some _ _ _ _ _).2 ⟨by rw [List.append_assoc], e2, e3⟩
      have h2 : matchHere ps (m2 ++ r) = some m2 := (ih (m2 ++ r) m2).2 ⟨l2, r, rfl⟩
      rw [h1]
      simp only [h2]

/-- A successful `find` gives a match of the pattern inside the text, and no match
starts further to the left. -/
theorem find_eq_some (re : Regexp) (s m : List Char) (h : find re s = some m) :
    Lang re m ∧ ∃ pre post, s = pre ++ m ++ post ∧
      ∀ pre1 m1 post1, s = pre1 ++ m1 ++ post1 → Lang re m1 → pre.length ≤ pre1.length := by
  induction s with
  | nil =>
    simp only [find] at h
    obtain ⟨l, r, hr⟩ := (matchHere_eq_some _ _ _).1 h
    refine ⟨l, [], r, by simpa using hr, ?_⟩
    intro pre1 m1 post1 _ _
    simp
  | cons c s ih =>
    simp only [find] at h
    cases h1 : matchHere re (c :: s) with
    | some m0 =>
      rw [h1] at h
      simp only [Option.some.injEq] at h
      subst h
      obtain ⟨l, r, hr⟩ := (matchHere_eq_some _ _ _).1 h1
      refine ⟨l, [], r, by simpa using hr, ?_⟩
      intro pre1 m1 post1 _ _
      simp
    | none =>
      rw [h1] at h
      obtain ⟨l, pre, post, e, hmin⟩ := ih h
      refine ⟨l, c :: pre, post, by rw [e]; rfl, ?_⟩
      intro pre1 m1 post1 e1 l1
      cases pre1 with
      | nil =>
        exfalso
        have : matchHere re (c :: s) = some m1 :=
          (matchHere_eq_some _ _ _).2 ⟨l1, post1, by simpa using e1⟩
        rw [h1] at this; cases this
      | cons x xs =>
        simp only [List.cons_append, List.cons.injEq] at e1
        have := hmin xs m1 post1 e1.2 l1
        simpa using this

/-- The function `find` fails only on a text in which the pattern matches nowhere. -/
theorem find_eq_none (re : Regexp) (s : List Char) (h : find re s = none)
    (pre m post : List Char) (e : s = pre ++ m ++ post) : ¬ Lang re m := by
  induction s generalizing pre with
  | nil =>
    intro l
    simp only [find] at h
    have hm : m = [] := by
      cases pre with
      | nil =>
        cases m with
        | nil => rfl
        | cons x xs => cases e
      | cons x xs => cases e
    have : matchHere re [] = some m := (matchHere_eq_some _ _ _).2 ⟨l, [], by simp [hm]⟩
    rw [h] at this; cases this
  | cons c s ih =>
    intro l
    simp only [find] at h
    cases h1 : matchHere re (c :: s) with
    | some m0 => rw [h1] at h; cases h
    | none =>
      rw [h1] at h
      cases pre with
      | nil =>
        have : matchHere re (c :: s) = some m :=
          (matchHere_eq_some _ _ _).2 ⟨l, post, by simpa using e⟩
        rw [h1] at this; cases this
      | cons x xs =>
        simp only [List.cons_append, List.cons.injEq] at e
        exact ih h xs e.2 l

theorem hexClass_accepts (c : Char) : hexClass.accepts c = true ↔ IsHexDigit c := by
  simp only [Atom.accepts, hexClass, IsHexDigit, List.any_cons, List.any_nil, Bool.or_false,
    Bool.or_eq_true, Bool.and_eq_true, decide_eq_true_eq]
  tauto

theorem lit_single (x : Char) (d : List Char) (hl : d.length = 1)
    (ha : ∀ c ∈ d, (Atom.lit x).accepts c = true) : d = [x] := by
  match d, hl with
  | [c], _ =>
    have := ha c (List.mem_singleton_self c)
    simp only [Atom.accepts, decide_eq_true_eq] at this
    rw [this]

theorem lang_uuidRegex (m : List Char) : Lang uuidRegex m ↔ UuidShapedChars m := by
  constructor
  · intro h
    simp only [uuidRegex, Lang] at h
    obtain ⟨g1, r1, rfl, l1, a1, d1, r2, rfl, ld1, ad1, g2, r3, rfl, l2, a2,
      d2, r4, rfl, ld2, ad2, g3, r5, rfl, l3, a3, d3, r6, rfl, ld3, ad3,
      g4, r7, rfl, l4, a4, d4, r8, rfl, ld4, ad4, g5, r9, rfl, l5, a5, rfl⟩ := h
    have e1 := lit_single _ _ ld1 ad1
    have e2 := lit_single _ _ ld2 ad2
    have e3 := lit_single _ _ ld3 ad3
    have e4 := lit_single _ _ ld4 ad4
    subst e1 e2 e3 e4
    refine ⟨g1, g2, g3, g4, g5, by simp, l1, l2, l3, l4, l5, ?_, ?_, ?_, ?_, ?_⟩
    · exact fun c hc => (hexClass_accepts c).1 (a1 c hc)
    · exact fun c hc => (hexClass_accepts c).1 (a2 c hc)
    · exact fun c hc => (hexClass_accepts c).1 (a3 c hc)
    · exact fun c hc => (hexClass_accepts c).1 (a4 c hc)
    · exact fun c hc => (hexClass_accepts c).1 (a5 c hc)
  · rintro ⟨g1, g2, g3, g4, g5, rfl, l1, l2, l3, l4, l5, a1, a2, a3, a4, a5⟩
    have hd : ∀ c ∈ ['-'], (Atom.lit '-').accepts c = true := by
      intro c hc
      rw [List.mem_singleton] at hc
      subst hc
      rfl
    simp only [uuidRegex, Lang]
    exact ⟨g1, _, rfl, l1, fun c hc => (hexClass_accepts c).2 (a1 c hc),
      ['-'], _, rfl, rfl, hd,
      g2, _, rfl, l2, fun c hc => (hexClass_accepts c).2 (a2 c hc),
      ['-'], _, rfl, rfl, hd,
      g3, _, rfl, l3, fun c hc => (hexClass_accepts c).2 (a3 c hc),
      ['-'], _, rfl, rfl, hd,
      g4, _, rfl, l4, fun c hc => (hexClass_accepts c).2 (a4 c hc),
      ['-'], _, rfl, rfl, hd,
      g5, [], by simp, l5, fun c hc => (hexClass_accepts c).2 (a5 c hc), rfl⟩

theorem uuidShapedChars_length (m : List Char) (h : UuidShapedChars m) : m.length = 36 := by
  obtain ⟨g1, g2, g3, g4, g5, rfl, l1, l2, l3, l4, l5, -⟩ := h
  simp only [List.length_append, List.length_cons, l1, l2, l3, l4, l5]

theorem occursAt_iff (s : String) (i : Nat) (u : String) :
    OccursAt s i u ↔ ∃ pre post : List Char, s.data = pre ++ u.data ++ post ∧ pre.length = i := by
  constructor
  · rintro ⟨pre, post, rfl, hl⟩
    exact ⟨pre.data, post.data, by simp [String.data_append], hl⟩
  · rintro ⟨pre, post, e, hl⟩
    refine ⟨String.mk pre, String.mk post, ?_, hl⟩
    apply String.ext
    simp [String.data_append, e]

/-- What `FindString uuidRegex` returns on a text that contains a UUID-shaped substring:
the leftmost one. -/
theorem FindString_uuid_of_contains (s : String) (hc : ContainsUuid s) :
    ∃ i, OccursAt s i (FindString uuidRegex s) ∧ UuidShaped (FindString uuidRegex s) ∧
      ∀ j u, OccursAt s j u → UuidShaped u → i ≤ j := by
  obtain ⟨j0, u0, ho, hu⟩ := hc
  obtain ⟨pre0, post0, e0, -⟩ := (occursAt_iff _ _ _).1 ho
  cases hf : find uuidRegex s.data with
  | none =>
    exact absurd ((lang_uuidRegex _).2 hu) (find_eq_none _ _ hf pre0 u0.data post0 e0)
  | some m =>
    obtain ⟨l, pre, post, e, hmin⟩ := find_eq_some _ _ _ hf
    have hF : FindString uuidRegex s = String.mk m := by
      simp only [FindString, hf]
    rw [hF]
    refine ⟨pre.length, (occursAt_iff _ _ _).2 ⟨pre, post, e, rfl⟩,
      (lang_uuidRegex _).1 l, ?_⟩
    intro j u hj hu1
    obtain ⟨pre1, post1, e1, rfl⟩ := (occursAt_iff _ _ _).1 hj
    exact hmin pre1 u.data post1 e1 ((lang_uuidRegex _).2 hu1)

/-- What `FindString uuidRegex` returns on a text without UUID-shaped substring. -/
theorem FindString_uuid_of_not_contains (s : String) (hc : ¬ ContainsUuid s) :
    FindString uuidRegex s = "" := by
  cases hf : find uuidRegex s.data with
  | none => simp only [FindString, hf]
  | some m =>
    exfalso
    obtain ⟨l, pre, post, e, -⟩ := find_eq_some _ _ _ hf
    exact hc ⟨pre.length, String.mk m, (occursAt_iff _ _ _).2 ⟨pre, post, e, rfl⟩,
      (lang_uuidRegex _).1 l⟩

theorem uuidShaped_length (u : String) (h : UuidShaped u) : u.length = 36 := by
  have := uuidShapedChars_length _ h
  cases u
  exact this

theorem getCassandraHostId_of_run_ok (exec : Exec) (nodetool : String)
    (hrun : (exec nodetool [NodetoolCommand]).err = none) :
    getCassandraHostId exec nodetool =
      if len (FindString uuidRegex (exec nodetool [NodetoolCommand]).stdout) = 0 then
        ("", some (.errorString "couldn't fetch Cassandra host ID"))
      else (FindString uuidRegex (exec nodetool [NodetoolCommand]).stdout, none) := by
  simp only [getCassandraHostId, runCommand, hrun, ne_eq, not_true_eq_false, if_false]

theorem getCassandraHostId_of_run_err (exec : Exec) (nodetool : String) (e : GoError)
    (hrun : (exec nodetool [NodetoolCommand]).err = some e) :
    getCassandraHostId exec nodetool = ("", some e) := by
  simp only [getCassandraHostId, runCommand, hrun, ne_eq, not_false_eq_true, if_true,
    reduceCtorEq]

theorem len_eq_zero_iff (s : String) : len s = 0 ↔ s = "" := by
  cases s with
  | mk cs =>
    simp only [len, String.utf8ByteSize_mk, String.utf8Len_eq_zero]
    constructor
    · rintro rfl; rfl
    · intro h; exact congrArg String.data h

theorem len_append (s t : String) : len (s ++ t) = len s + len t := by
  cases s with
  | mk cs =>
    cases t with
    | mk ct =>
      show String.utf8ByteSize (String.mk (cs ++ ct)) = _
      simp only [len, String.utf8ByteSize_mk, String.utf8Len_append]

theorem uuidShaped_ne_empty (u : String) (h : UuidShaped u) : u ≠ "" := by
  intro e
  have := uuidShaped_length u h
  rw [e] at this
  cases this

/-- Two occurrences at the same position of strings of the same length are equal. -/
theorem occursAt_unique (s : String) (i : Nat) (u v : String) (hu : OccursAt s i u)
    (hv : OccursAt s i v) (hl : u.length = v.length) : u = v := by
  obtain ⟨p1, q1, e1, l1⟩ := (occursAt_iff _ _ _).1 hu
  obtain ⟨p2, q2, e2, l2⟩ := (occursAt_iff _ _ _).1 hv
  rw [e1, List.append_assoc, List.append_assoc] at e2
  have h1 := List.append_inj e2 (by rw [l1, l2])
  have hl2 : u.data.length = v.data.length := by
    cases u; cases v; exact hl
  have h2 := List.append_inj h1.2 hl2
  exact String.ext h2.1

theorem slash_split (p1 n1 p2 n2 : List Char)
    (h : p1 ++ '/' :: n1 = p2 ++ '/' :: n2)
    (hs : ('/' ∉ p1 ∧ '/' ∉ p2) ∨ ('/' ∉ n1 ∧ '/' ∉ n2)) : p1 = p2 ∧ n1 = n2 := by
  rcases List.append_eq_append_iff.1 h with ⟨a, e1, e2⟩ | ⟨a, e1, e2⟩
  · cases a with
    | nil =>
      simp only [List.append_nil, List.nil_append, List.cons.injEq, true_and] at e1 e2
      exact ⟨e1.symm, e2⟩
    | cons x xs =>
      simp only [List.cons_append, List.cons.injEq] at e2
      obtain ⟨rfl, rfl⟩ := e2
      exfalso
      rcases hs with ⟨-, h2⟩ | ⟨h1, -⟩
      · exact h2 (by rw [e1]; simp)
      · exact h1 (by simp)
  · cases a with
    | nil =>
      simp only [List.append_nil, List.nil_append, List.cons.injEq, true_and] at e1 e2
      exact ⟨e1, e2.symm⟩
    | cons x xs =>
      simp only [List.cons_append, List.cons.injEq] at e2
      obtain ⟨rfl, rfl⟩ := e2
      exfalso
      rcases hs with ⟨h1, -⟩ | ⟨-, h2⟩
      · exact h1 (by rw [e1]; simp)
      · exact h2 (by simp)

theorem scenarioUuid_shaped : UuidShaped "1b4e28ba-2fa1-11d2-883f-0016d3cca427" :=
  ⟨"1b4e28ba".data, "2fa1".data, "11d2".data, "883f".data, "0016d3cca427".data,
    by decide, by decide, by decide, by decide, by decide, by decide,
    by decide, by decide, by decide, by decide, by decide⟩

theorem scenario_contains :
    ContainsUuid "ID : 1b4e28ba-2fa1-11d2-883f-0016d3cca427 is alive" :=
  ⟨5, "1b4e28ba-2fa1-11d2-883f-0016d3cca427", ⟨"ID : ", " is alive", by decide, by decide⟩,
    scenarioUuid_shaped⟩

theorem containsUuid_iff_find (s : String) :
    ContainsUuid s ↔ (find uuidRegex s.data).isSome = true := by
  constructor
  · rintro ⟨i, u, ho, hu⟩
    obtain ⟨pre, post, e, -⟩ := (occursAt_iff _ _ _).1 ho
    cases hf : find uuidRegex s.data with
    | none => exact absurd ((lang_uuidRegex _).2 hu) (find_eq_none _ _ hf pre u.data post e)
    | some m => rfl
  · intro h
    cases hf : find uuidRegex s.data with
    | none => rw [hf] at h; cases h
    | some m =>
      obtain ⟨l, pre, post, e, -⟩ := find_eq_some _ _ _ hf
      exact ⟨pre.length, String.mk m, (occursAt_iff _ _ _).2 ⟨pre, post, e, rfl⟩,
        (lang_uuidRegex _).1 l⟩

/-- The pattern matches at the position of every UUID-shaped occurrence. -/
theorem matchHere_of_occursAt (s : String) (j : Nat) (v : String) (h : OccursAt s j v)
    (hv : UuidShaped v) : matchHere uuidRegex (s.data.drop j) = some v.data := by
  obtain ⟨pre, post, e, rfl⟩ := (occursAt_iff _ _ _).1 h
  rw [e, List.append_assoc, List.drop_left]
  exact (matchHere_eq_some _ _ _).2 ⟨(lang_uuidRegex _).2 hv, post, rfl⟩

/-- No UUID-shaped substring starts before position `n` when the pattern matches at
none of the positions below `n`. -/
theorem no_uuid_before (s : String) (n : Nat)
    (h : ∀ j < n, matchHere uuidRegex (s.data.drop j) = none) :
    ∀ j v, OccursAt s j v → UuidShaped v → n ≤ j := by
  intro j v ho hv
  by_contra hlt
  have e := matchHere_of_occursAt s j v ho hv
  rw [h j (Nat.lt_of_not_le hlt)] at e
  cases e

/-- A text on which `find` fails contains no UUID-shaped substring. -/
theorem not_containsUuid_of_find (s : String) (h : find uuidRegex s.data = none) :
    ¬ ContainsUuid s := by
  intro hc
  have := (containsUuid_iff_find s).1 hc
  rw [h] at this
  cases this

theorem Fields.get_set_self (k : String) (v : Json) :
    (fs : Fields) → (fs.set k v).get k = some v
  | .nil => by simp [Fields.set, Fields.get]
  | .cons key value rest => by
    have ih := Fields.get_set_self k v rest
    by_cases hk : key = k
    · simp [Fields.set, Fields.get, hk]
    · simp [Fields.set, Fields.get, hk, ih]

theorem Fields.get_set_ne (k k1 : String) (v : Json) (hne : k1 ≠ k) :
    (fs : Fields) → (fs.set k v).get k1 = fs.get k1
  | .nil => by simp [Fields.set, Fields.get, Ne.symm hne]
  | .cons key value rest => by
    have ih := Fields.get_set_ne k k1 v hne rest
    by_cases hk : key = k
    · subst hk
      simp [Fields.set, Fields.get, Ne.symm hne]
    · by_cases hk1 : key = k1
      · subst hk1
        simp [Fields.set, Fields.get, hk]
      · simp [Fields.set, Fields.get, hk, hk1, ih]

theorem stringEntries_set_self (k h : String) :
    (fs : Fields) → (stringEntries (fs.set k (.str h))).lookup k = some h
  | .nil => by simp [Fields.set, stringEntries, List.lookup]
  | .cons key value rest => by
    have ih := stringEntries_set_self k h rest
    by_cases hk : key = k
    · subst hk
      simp [Fields.set, stringEntries, List.lookup]
    · have hb : (k == key) = false := by simpa using Ne.symm hk
      cases value <;> simp [Fields.set, stringEntries, List.lookup, hk, hb, ih]

theorem stringEntries_set_ne (k k1 : String) (v : Json) (hne : k1 ≠ k) :
    (fs : Fields) → (stringEntries (fs.set k v)).lookup k1 = (stringEntries fs).lookup k1
  | .nil => by
    have hb : (k1 == k) = false := by simpa using hne
    cases v <;> simp [Fields.set, stringEntries, List.lookup, hb]
  | .cons key value rest => by
    have hb : (k1 == k) = false := by simpa using hne
    have ih := stringEntries_set_ne k k1 v hne rest
    by_cases hk : key = k
    · subst hk
      cases v <;> cases value <;> simp [Fields.set, stringEntries, List.lookup, hb]
    · cases value <;> simp [Fields.set, stringEntries, List.lookup, hk, ih]

theorem mergePatch_buildPatch (doc : Json) (key h : String) :
    mergePatch doc (buildPatch key h) =
      .obj (doc.fields.set MetaDataKey
        (.obj ((metadataOf doc).fields.set AnnotationsKey
          (.obj ((annotationsOf doc).fields.set key (.str h)))))) := by
  simp [buildPatch, mergePatch, mergeFields, metadataOf, annotationsOf, Json.member]

theorem index_decodeAnnotations (doc : Json) (k : String) :
    (decodeAnnotations doc).index k =
      match (stringEntries (annotationsOf doc).fields).lookup k with
      | some v => (v, true)
      | none => ("", false) := by
  unfold decodeAnnotations annotationsOf metadataOf
  cases h1 : doc.member MetaDataKey with
  | none => simp [targetOf, Json.member, Json.fields, Fields.get, stringEntries, GoMap.index]
  | some md =>
    simp only [targetOf]
    cases h2 : md.member AnnotationsKey with
    | none => simp [targetOf, Json.fields, stringEntries, GoMap.index]
    | some a =>
      cases a <;> simp [targetOf, Json.fields, stringEntries, GoMap.index]

/-- The three ways `PopulateHostId` ends after a successful extraction. -/
theorem PopulateHostId_of_extracted (client : Clientset) (exec : Exec)
    (nodetoolPath ns createdBy annotationsPrefix podName h : String)
    (hx : getCassandraHostId exec nodetoolPath = (h, none)) :
    PopulateHostId client exec nodetoolPath ns createdBy annotationsPrefix podName =
      match client.objects ns createdBy with
      | none =>
        (some (.apiError ("statefulsets not found: " ++ createdBy)),
          { client with calls := client.calls ++ [ApiCall.get ns createdBy] })
      | some doc =>
        match client.reject ns createdBy
            (buildPatch (getAnnotationName annotationsPrefix podName) h) with
        | some err =>
          (some err,
            { client with
              calls := client.calls ++ [ApiCall.get ns createdBy] ++
                [ApiCall.patch ns createdBy .MergePatchType
                  (buildPatch (getAnnotationName annotationsPrefix podName) h)] })
        | none =>
          (none,
            { objects := fun ns1 name1 =>
                if ns1 = ns ∧ name1 = createdBy then
                  some (mergePatch doc
                    (buildPatch (getAnnotationName annotationsPrefix podName) h))
                else client.objects ns1 name1
              reject := client.reject
              calls := client.calls ++ [ApiCall.get ns createdBy] ++
                [ApiCall.patch ns createdBy .MergePatchType
                  (buildPatch (getAnnotationName annotationsPrefix podName) h)] }) := by
  unfold PopulateHostId
  rw [hx]
  simp only
  unfold StatefulSets.Get
  cases hobj : client.objects ns createdBy with
  | none => simp only
  | some doc =>
    simp only
    unfold StatefulSets.Patch
    simp only [StatefulSet.Name, hobj]
    cases hrej : client.reject ns createdBy
        (buildPatch (getAnnotationName annotationsPrefix podName) h) with
    | none => simp only
    | some err => simp only

theorem PopulateHostId_of_not_extracted (client : Clientset) (exec : Exec)
    (nodetoolPath ns createdBy annotationsPrefix podName : String)
    (hx : (getCassandraHostId exec nodetoolPath).2 ≠ none) :
    PopulateHostId client exec nodetoolPath ns createdBy annotationsPrefix podName =
      ((getCassandraHostId exec nodetoolPath).2, client) := by
  unfold PopulateHostId
  cases hg : getCassandraHostId exec nodetoolPath with
  | mk h e =>
    cases e with
    | none => rw [hg] at hx; exact absurd rfl hx
    | some err => simp only

theorem FetchHostId_of_object (client : Clientset) (ns createdBy annotationsPrefix podName : String)
    (doc : Json) (hobj : client.objects ns createdBy = some doc) :
    (FetchHostId client ns createdBy annotationsPrefix podName).1 =
      if ((decodeAnnotations doc).index (getAnnotationName annotationsPrefix podName)).2 = true
      then (((decodeAnnotations doc).index (getAnnotationName annotationsPrefix podName)).1, none)
      else ("", some (.errorString (Sprint ["Host ID for", podName,
        "not present in annotations for StatefulSet", createdBy]))) := by
  unfold FetchHostId StatefulSets.Get
  simp only [hobj]
  cases hb : ((decodeAnnotations doc).index (getAnnotationName annotationsPrefix podName)).2
    <;> simp [hb]

theorem GoMap.index_of_has (m : GoMap) (k v : String) (h : m.Has k v) : m.index k = (v, true) := by
  obtain ⟨l, rfl, hl⟩ := h
  simp [GoMap.index, hl]

theorem GoMap.index_of_lacks (m : GoMap) (k : String) (h : m.Lacks k) :
    m.index k = ("", false) := by
  rcases h with rfl | ⟨l, rfl, hl⟩
  · rfl
  · simp [GoMap.index, hl]

theorem GoMap.has_or_lacks (m : GoMap) (k : String) : (∃ v, m.Has k v) ∨ m.Lacks k := by
  cases m with
  | none => exact Or.inr (Or.inl rfl)
  | some l =>
    cases hl : l.lookup k with
    | none => exact Or.inr (Or.inr ⟨l, rfl, hl⟩)
    | some v => exact Or.inl ⟨v, l, rfl, hl⟩

theorem annotationsOf_mergePatch (doc : Json) (key h : String) :
    annotationsOf (mergePatch doc (buildPatch key h)) =
      .obj ((annotationsOf doc).fields.set key (.str h)) := by
  rw [mergePatch_buildPatch]
  simp only [annotationsOf, metadataOf, Json.member, Json.fields, Fields.get_set_self, targetOf]

theorem metadataOf_mergePatch (doc : Json) (key h : String) :
    metadataOf (mergePatch doc (buildPatch key h)) =
      .obj ((metadataOf doc).fields.set AnnotationsKey
        (.obj ((annotationsOf doc).fields.set key (.str h)))) := by
  rw [mergePatch_buildPatch]
  simp only [metadataOf, Json.member, Json.fields, Fields.get_set_self, targetOf]

/-- The compiled pattern prints back as the pattern text of the source. -/
theorem uuidRegex_source : uuidRegex.source = UuidRegex := by
  decide

theorem utf8Size_of_le_f (c : Char) (h : c ≤ 'f') : c.utf8Size = 1 := by
  have h1 : c.val.toNat ≤ 102 := h
  have h2 : c.val ≤ 127 := by
    show c.val.toNat ≤ 127
    omega
  simp only [Char.utf8Size]
  exact if_pos h2

theorem utf8Size_of_hex (c : Char) (h : IsHexDigit c) : c.utf8Size = 1 := by
  apply utf8Size_of_le_f
  have t1 : ('9' : Char) ≤ 'f' := by decide
  have t2 : ('F' : Char) ≤ 'f' := by decide
  rcases h with ⟨-, h⟩ | ⟨-, h⟩ | ⟨-, h⟩
  · exact Nat.le_trans h t1
  · exact h
  · exact Nat.le_trans h t2

theorem utf8Len_of_single_bytes (l : List Char) (h : ∀ c ∈ l, c.utf8Size = 1) :
    String.utf8Len l = l.length := by
  induction l with
  | nil => rfl
  | cons c cs ih =>
    simp only [String.utf8Len_cons, List.length_cons]
    rw [ih (fun x hx => h x (List.mem_cons_of_mem _ hx)), h c (List.mem_cons_self _ _)]

/-- A UUID-shaped string takes 36 bytes. -/
theorem uuidShaped_len (u : String) (h : UuidShaped u) : len u = 36 := by
  have hl := uuidShapedChars_length _ h
  have hb : ∀ c ∈ u.data, c.utf8Size = 1 := by
    obtain ⟨g1, g2, g3, g4, g5, e, -, -, -, -, -, a1, a2, a3, a4, a5⟩ := h
    intro c hc
    rw [e] at hc
    simp only [List.mem_append, List.mem_cons] at hc
    have hd : c = '-' → c.utf8Size = 1 := fun hx => by rw [hx]; rfl
    rcases hc with h1 | h1 | h1 | h1 | h1 | h1 | h1 | h1 | h1
    · exact utf8Size_of_hex c (a1 c h1)
    · exact hd h1
    · exact utf8Size_of_hex c (a2 c h1)
    · exact hd h1
    · exact utf8Size_of_hex c (a3 c h1)
    · exact hd h1
    · exact utf8Size_of_hex c (a4 c h1)
    · exact hd h1
    · exact utf8Size_of_hex c (a5 c h1)
  cases u with
  | mk cs =>
    show String.utf8ByteSize (String.mk cs) = 36
    rw [String.utf8ByteSize_mk, utf8Len_of_single_bytes cs hb]
    exact hl

/-! ## The claims -/

/-- C1: when the command ran without error and its output contains a UUID-shaped
substring, `getCassandraHostId` succeeds and returns the leftmost one: the result occurs
in the output as it stands, is UUID-shaped, has 36 characters (and bytes), and no UUID-shaped
substring starts at an earlier position.  On the scenario output it returns
`1b4e28ba-2fa1-11d2-883f-0016d3cca427`. -/
theorem getCassandraHostId_leftmost_uuid (exec : Exec) (nodetool : String)
    (hrun : (exec nodetool [NodetoolCommand]).err = none)
    (hc : ContainsUuid (exec nodetool [NodetoolCommand]).stdout) :
    (∃ h i, getCassandraHostId exec nodetool = (h, none) ∧
      OccursAt (exec nodetool [NodetoolCommand]).stdout i h ∧ UuidShaped h ∧
      h.length = 36 ∧ len h = 36 ∧
      ∀ j u, OccursAt (exec nodetool [NodetoolCommand]).stdout j u → UuidShaped u → i ≤ j) ∧
    getCassandraHostId scenarioExec nodetool = ("1b4e28ba-2fa1-11d2-883f-0016d3cca427", none) := by
  refine ⟨?_, rfl⟩
  obtain ⟨i, ho, hu, hmin⟩ := FindString_uuid_of_contains _ hc
  refine ⟨_, i, ?_, ho, hu, uuidShaped_length _ hu, uuidShaped_len _ hu, hmin⟩
  rw [getCassandraHostId_of_run_ok exec nodetool hrun,
    if_neg (fun h0 => uuidShaped_ne_empty _ hu ((len_eq_zero_iff _).1 h0))]

/-- C1, witness: the scenario run. -/
theorem getCassandraHostId_leftmost_uuid_witness :
    (scenarioExec "/usr/bin/nodetool" [NodetoolCommand]).err = none ∧
    ContainsUuid (scenarioExec "/usr/bin/nodetool" [NodetoolCommand]).stdout ∧
    ∃ h i, getCassandraHostId scenarioExec "/usr/bin/nodetool" = (h, none) ∧
      OccursAt (scenarioExec "/usr/bin/nodetool" [NodetoolCommand]).stdout i h ∧
      UuidShaped h ∧ h.length = 36 ∧ len h = 36 ∧
      ∀ j u, OccursAt (scenarioExec "/usr/bin/nodetool" [NodetoolCommand]).stdout j u →
        UuidShaped u → i ≤ j :=
  ⟨rfl, scenario_contains,
    (getCassandraHostId_leftmost_uuid scenarioExec "/usr/bin/nodetool" rfl scenario_contains).1⟩

/-- C5, counterexample: the command could not be started and printed nothing; the
output contains no UUID-shaped substring, yet the error returned is the one of the
run, not the not-found error. -/
theorem getCassandraHostId_not_found_counterexample :
    ¬ ContainsUuid (notStartedExec "/usr/bin/nodetool" [NodetoolCommand]).stdout ∧
    getCassandraHostId notStartedExec "/usr/bin/nodetool" =
      ("", some (.execError "fork/exec /usr/bin/nodetool: no such file or directory")) ∧
    getCassandraHostId notStartedExec "/usr/bin/nodetool" ≠
      ("", some (.errorString "couldn't fetch Cassandra host ID")) :=
  ⟨not_containsUuid_of_find _ (by decide), by decide, by decide⟩

/-- C5, amended: on an output without UUID-shaped substring `getCassandraHostId` fails
with the empty identifier, and with the not-found error when the command ran without
error (so on the empty output of such a run); conversely, after a run without error it
fails only if the output contains no UUID-shaped substring. -/
theorem getCassandraHostId_not_found (exec : Exec) (nodetool : String) :
    (¬ ContainsUuid (exec nodetool [NodetoolCommand]).stdout →
      (∃ e, getCassandraHostId exec nodetool = ("", some e)) ∧
      ((exec nodetool [NodetoolCommand]).err = none →
        getCassandraHostId exec nodetool =
          ("", some (.errorString "couldn't fetch Cassandra host ID")))) ∧
    ((exec nodetool [NodetoolCommand]).err = none →
      (getCassandraHostId exec nodetool).2 ≠ none →
      ¬ ContainsUuid (exec nodetool [NodetoolCommand]).stdout) ∧
    getCassandraHostId silentExec nodetool =
      ("", some (.errorString "couldn't fetch Cassandra host ID")) := by
  have key : (exec nodetool [NodetoolCommand]).err = none →
      ¬ ContainsUuid (exec nodetool [NodetoolCommand]).stdout →
      getCassandraHostId exec nodetool =
        ("", some (.errorString "couldn't fetch Cassandra host ID")) := by
    intro hrun hn
    rw [getCassandraHostId_of_run_ok exec nodetool hrun, FindString_uuid_of_not_contains _ hn]
    rfl
  refine ⟨fun hn => ⟨?_, fun hrun => key hrun hn⟩, ?_, rfl⟩
  · cases hrun : (exec nodetool [NodetoolCommand]).err with
    | none => exact ⟨_, key hrun hn⟩
    | some e => exact ⟨e, getCassandraHostId_of_run_err exec nodetool e hrun⟩
  · intro hrun hfail hc
    obtain ⟨i, -, hu, -⟩ := FindString_uuid_of_contains _ hc
    rw [getCassandraHostId_of_run_ok exec nodetool hrun,
      if_neg (fun h0 => uuidShaped_ne_empty _ hu ((len_eq_zero_iff _).1 h0))] at hfail
    exact hfail rfl

/-- C5, witness: a run without error that prints nothing. -/
theorem getCassandraHostId_not_found_witness :
    ¬ ContainsUuid (silentExec "/usr/bin/nodetool" [NodetoolCommand]).stdout ∧
    (silentExec "/usr/bin/nodetool" [NodetoolCommand]).err = none ∧
    getCassandraHostId silentExec "/usr/bin/nodetool" =
      ("", some (.errorString "couldn't fetch Cassandra host ID")) :=
  ⟨not_containsUuid_of_find _ (by decide), rfl,
    ((getCassandraHostId_not_found silentExec "/usr/bin/nodetool").1
      (not_containsUuid_of_find _ (by decide))).2 rfl⟩

/-- C7, counterexample: the command printed the scenario line and exited with a
non-zero status; `getCassandraHostId` returns the exit error and no identifier. -/
theorem getCassandraHostId_exit_error_counterexample :
    (failedExec "/usr/bin/nodetool" [NodetoolCommand]).err ≠ none ∧
    ContainsUuid (failedExec "/usr/bin/nodetool" [NodetoolCommand]).stdout ∧
    getCassandraHostId failedExec "/usr/bin/nodetool" =
      ("", some (.execError "exit status 1")) ∧
    ¬ ∃ h, getCassandraHostId failedExec "/usr/bin/nodetool" = (h, none) := by
  refine ⟨by decide, scenario_contains, by decide, ?_⟩
  rintro ⟨h, e⟩
  have e2 : (getCassandraHostId failedExec "/usr/bin/nodetool").2 = none := by rw [e]
  revert e2
  decide

/-- C7, amended: an error of the run is fatal.  `runCommand` hands back the captured
output together with the error, and `getCassandraHostId` returns that error with the
empty identifier whatever the captured output holds. -/
theorem getCassandraHostId_exit_error (exec : Exec) (nodetool : String) (e : GoError)
    (hrun : (exec nodetool [NodetoolCommand]).err = some e) :
    runCommand exec nodetool [NodetoolCommand] =
      ((exec nodetool [NodetoolCommand]).stdout, some e) ∧
    getCassandraHostId exec nodetool = ("", some e) := by
  refine ⟨?_, getCassandraHostId_of_run_err exec nodetool e hrun⟩
  simp only [runCommand, hrun, ne_eq, not_false_eq_true, if_true, reduceCtorEq]

/-- C7, witness: the scenario line printed by a run that exits with status 1. -/
theorem getCassandraHostId_exit_error_witness :
    (failedExec "/usr/bin/nodetool" [NodetoolCommand]).err = some (.execError "exit status 1") ∧
    runCommand failedExec "/usr/bin/nodetool" [NodetoolCommand] =
      ("ID : 1b4e28ba-2fa1-11d2-883f-0016d3cca427 is alive",
        some (.execError "exit status 1")) ∧
    getCassandraHostId failedExec "/usr/bin/nodetool" =
      ("", some (.execError "exit status 1")) :=
  ⟨rfl, getCassandraHostId_exit_error failedExec "/usr/bin/nodetool"
    (.execError "exit status 1") rfl⟩

/-- C8, counterexample: the text before the identifier holds another UUID-shaped
substring, and that one is returned. -/
theorem getCassandraHostId_surrounding_counterexample :
    UuidShaped "1b4e28ba-2fa1-11d2-883f-0016d3cca427" ∧
    (twoUuidExec "/usr/bin/nodetool" [NodetoolCommand]).err = none ∧
    (twoUuidExec "/usr/bin/nodetool" [NodetoolCommand]).stdout =
      "Token : 0a1b2c3d-0000-4000-8000-00000000beef\n" ++
        "1b4e28ba-2fa1-11d2-883f-0016d3cca427" ++ " is alive" ∧
    getCassandraHostId twoUuidExec "/usr/bin/nodetool" =
      ("0a1b2c3d-0000-4000-8000-00000000beef", none) ∧
    getCassandraHostId twoUuidExec "/usr/bin/nodetool" ≠
      ("1b4e28ba-2fa1-11d2-883f-0016d3cca427", none) :=
  ⟨scenarioUuid_shaped, by decide, by decide, by decide, by decide⟩

/-- C8, amended: for every UUID-shaped `u` and all `pre`, `post` such that no
UUID-shaped substring of `pre ++ u ++ post` starts before `u`, `getCassandraHostId` on
the successfully captured output `pre ++ u ++ post` returns exactly `u`. -/
theorem getCassandraHostId_surrounding (exec : Exec) (nodetool : String) (pre u post : String)
    (hrun : (exec nodetool [NodetoolCommand]).err = none)
    (hout : (exec nodetool [NodetoolCommand]).stdout = pre ++ u ++ post)
    (hu : UuidShaped u)
    (hfirst : ∀ j v, OccursAt (pre ++ u ++ post) j v → UuidShaped v → pre.length ≤ j) :
    getCassandraHostId exec nodetool = (u, none) := by
  have hocc : OccursAt (pre ++ u ++ post) pre.length u := ⟨pre, post, rfl, rfl⟩
  obtain ⟨i, ho, hf, hmin⟩ := FindString_uuid_of_contains _ ⟨pre.length, u, hocc, hu⟩
  have hi : i = pre.length := Nat.le_antisymm (hmin _ _ hocc hu) (hfirst _ _ ho hf)
  rw [hi] at ho
  have hfu := occursAt_unique _ _ _ _ ho hocc
    (by rw [uuidShaped_length _ hf, uuidShaped_length _ hu])
  rw [getCassandraHostId_of_run_ok exec nodetool hrun, hout,
    if_neg (fun h0 => uuidShaped_ne_empty _ hf ((len_eq_zero_iff _).1 h0)), hfu]

/-- C8, witness: the scenario line, where nothing UUID-shaped starts before position 5. -/
theorem getCassandraHostId_surrounding_witness :
    getCassandraHostId scenarioExec "/usr/bin/nodetool" =
      ("1b4e28ba-2fa1-11d2-883f-0016d3cca427", none) :=
  getCassandraHostId_surrounding scenarioExec "/usr/bin/nodetool" "ID : "
    "1b4e28ba-2fa1-11d2-883f-0016d3cca427" " is alive" rfl (by decide) scenarioUuid_shaped
    (no_uuid_before _ 5 (by decide))

/-- C6: `getAnnotationName prefix name` is `prefix ++ "/" ++ name`; its length, in bytes
and in characters, is that of the prefix plus one plus that of the name; prefix
`cassandra` and member `pod-0` give `cassandra/pod-0`. -/
theorem getAnnotationName_eq (pfx name : String) :
    getAnnotationName pfx name = pfx ++ "/" ++ name ∧
    len (getAnnotationName pfx name) = len pfx + 1 + len name ∧
    (getAnnotationName pfx name).length = pfx.length + 1 + name.length ∧
    getAnnotationName "cassandra" "pod-0" = "cassandra/pod-0" := by
  refine ⟨rfl, ?_, ?_, by decide⟩
  · rw [getAnnotationName, len_append, len_append]
    rfl
  · rw [getAnnotationName, String.length_append, String.length_append]
    rfl

/-- C9, counterexample: prefix `a/b` with name `c` and prefix `a` with name `b/c` give
the same key. -/
theorem getAnnotationName_injective_counterexample :
    getAnnotationName "a/b" "c" = getAnnotationName "a" "b/c" ∧
    ¬ ("a/b" = "a" ∧ "c" = "b/c") := by
  decide

/-- C9, amended: annotation key composition is a function of the pair, and it is
injective on pairs whose prefixes contain no `/`, and on pairs whose names contain no
`/`: there equal keys come from equal prefixes and equal names. -/
theorem getAnnotationName_injective (p1 n1 p2 n2 : String)
    (hs : ('/' ∉ p1.data ∧ '/' ∉ p2.data) ∨ ('/' ∉ n1.data ∧ '/' ∉ n2.data))
    (h : getAnnotationName p1 n1 = getAnnotationName p2 n2) : p1 = p2 ∧ n1 = n2 := by
  have h2 : p1.data ++ '/' :: n1.data = p2.data ++ '/' :: n2.data := by
    have := congrArg String.data h
    simpa [getAnnotationName, String.data_append] using this
  obtain ⟨e1, e2⟩ := slash_split _ _ _ _ h2 hs
  exact ⟨String.ext e1, String.ext e2⟩

/-- C9, witness: prefix `cassandra` and name `pod-0`, neither of which holds a `/`. -/
theorem getAnnotationName_injective_witness :
    (('/' ∉ "cassandra".data ∧ '/' ∉ "cassandra".data) ∨
      ('/' ∉ "pod-0".data ∧ '/' ∉ "pod-0".data)) ∧
    getAnnotationName "cassandra" "pod-0" = getAnnotationName "cassandra" "pod-0" ∧
    "cassandra" = "cassandra" ∧ "pod-0" = "pod-0" :=
  ⟨by decide, rfl,
    getAnnotationName_injective "cassandra" "pod-0" "cassandra" "pod-0" (by decide) rfl⟩

/-- C4: for an existing workload group, `FetchHostId` returns `(v, nil)` exactly when
the annotation map of the group holds the computed key with value `v` (the empty string
included), and it returns the missing-annotation error with the empty identifier exactly
when the key is absent, as it is from the nil map and from the empty map. -/
theorem FetchHostId_iff_key_present (client : Clientset)
    (ns createdBy annotationsPrefix podName : String) (statefulSet : StatefulSet)
    (hget : (StatefulSets.Get client ns createdBy).1 = .ok statefulSet) :
    (∀ v, (FetchHostId client ns createdBy annotationsPrefix podName).1 = (v, none) ↔
      statefulSet.ObjectMeta.Annotations.Has (getAnnotationName annotationsPrefix podName) v) ∧
    ((FetchHostId client ns createdBy annotationsPrefix podName).1 =
        ("", some (.errorString (Sprint ["Host ID for", podName,
          "not present in annotations for StatefulSet", createdBy]))) ↔
      statefulSet.ObjectMeta.Annotations.Lacks (getAnnotationName annotationsPrefix podName)) ∧
    (statefulSet.ObjectMeta.Annotations = none ∨ statefulSet.ObjectMeta.Annotations = some [] →
      (FetchHostId client ns createdBy annotationsPrefix podName).1 =
        ("", some (.errorString (Sprint ["Host ID for", podName,
          "not present in annotations for StatefulSet", createdBy])))) := by
  unfold StatefulSets.Get at hget
  cases hobj : client.objects ns createdBy with
  | none => rw [hobj] at hget; cases hget
  | some doc =>
    rw [hobj] at hget
    simp only [Except.ok.injEq] at hget
    subst hget
    simp only
    rw [FetchHostId_of_object client ns createdBy annotationsPrefix podName doc hobj]
    have hhas : ∀ v, (decodeAnnotations doc).Has (getAnnotationName annotationsPrefix podName) v →
        (if ((decodeAnnotations doc).index (getAnnotationName annotationsPrefix podName)).2 = true
          then (((decodeAnnotations doc).index
            (getAnnotationName annotationsPrefix podName)).1, (none : Option GoError))
          else ("", some (.errorString (Sprint ["Host ID for", podName,
            "not present in annotations for StatefulSet", createdBy])))) = (v, none) := by
      intro v hv
      rw [GoMap.index_of_has _ _ _ hv]
      rfl
    have hlacks : (decodeAnnotations doc).Lacks (getAnnotationName annotationsPrefix podName) →
        (if ((decodeAnnotations doc).index (getAnnotationName annotationsPrefix podName)).2 = true
          then (((decodeAnnotations doc).index
            (getAnnotationName annotationsPrefix podName)).1, (none : Option GoError))
          else ("", some (.errorString (Sprint ["Host ID for", podName,
            "not present in annotations for StatefulSet", createdBy])))) =
          ("", some (.errorString (Sprint ["Host ID for", podName,
            "not present in annotations for StatefulSet", createdBy]))) := by
      intro hl
      rw [GoMap.index_of_lacks _ _ hl]
      rfl
    refine ⟨fun v => ⟨fun hf => ?_, hhas v⟩, ⟨fun hf => ?_, hlacks⟩, ?_⟩
    · rcases GoMap.has_or_lacks (decodeAnnotations doc)
        (getAnnotationName annotationsPrefix podName) with ⟨w, hw⟩ | hl
      · rw [hhas w hw] at hf
        simp only [Prod.mk.injEq, and_true] at hf
        rw [← hf]; exact hw
      · rw [hlacks hl] at hf
        simp at hf
    · rcases GoMap.has_or_lacks (decodeAnnotations doc)
        (getAnnotationName annotationsPrefix podName) with ⟨w, hw⟩ | hl
      · rw [hhas w hw] at hf
        simp at hf
      · exact hl
    · rintro (hn | he)
      · exact hlacks (Or.inl hn)
      · exact hlacks (Or.inr ⟨[], he, rfl⟩)

/-- C4, witness: a group without the key gives the missing-annotation error, and a
group whose value for the key is the empty string gives `("", nil)`. -/
theorem FetchHostId_iff_key_present_witness :
    (StatefulSets.Get demoClient "default" "cassandra").1 =
      .ok ⟨⟨"cassandra", "default", some [("owner", "storage-team")]⟩⟩ ∧
    (FetchHostId demoClient "default" "cassandra" "cassandra" "pod-0").1 =
      ("", some (.errorString
        "Host ID forpod-0not present in annotations for StatefulSetcassandra")) ∧
    (StatefulSets.Get blankClient "default" "cassandra").1 =
      .ok ⟨⟨"cassandra", "default", some [("cassandra/pod-0", "")]⟩⟩ ∧
    (FetchHostId blankClient "default" "cassandra" "cassandra" "pod-0").1 = ("", none) :=
  ⟨rfl, ((FetchHostId_iff_key_present demoClient "default" "cassandra" "cassandra" "pod-0"
    ⟨⟨"cassandra", "default", some [("owner", "storage-team")]⟩⟩ rfl).2.1).2
      (Or.inr ⟨_, rfl, by decide⟩),
    rfl, ((FetchHostId_iff_key_present blankClient "default" "cassandra" "cassandra" "pod-0"
    ⟨⟨"cassandra", "default", some [("cassandra/pod-0", "")]⟩⟩ rfl).1 "").2
      ⟨_, rfl, by decide⟩⟩

/-- C2: populate followed by fetch returns the identifier just written.  When
extraction yields `h` and `PopulateHostId` succeeds, `FetchHostId` with the same
namespace, group, prefix and pod name on the resulting store returns `h` without
error. -/
theorem FetchHostId_after_PopulateHostId (client : Clientset) (exec : Exec)
    (nodetoolPath ns createdBy annotationsPrefix podName h : String)
    (hx : getCassandraHostId exec nodetoolPath = (h, none))
    (hp : (PopulateHostId client exec nodetoolPath ns createdBy annotationsPrefix podName).1
      = none) :
    (FetchHostId
      (PopulateHostId client exec nodetoolPath ns createdBy annotationsPrefix podName).2
      ns createdBy annotationsPrefix podName).1 = (h, none) := by
  rw [PopulateHostId_of_extracted client exec nodetoolPath ns createdBy annotationsPrefix
    podName h hx] at hp ⊢
  cases hobj : client.objects ns createdBy with
  | none => rw [hobj] at hp; cases hp
  | some doc =>
    rw [hobj] at hp
    simp only at hp ⊢
    cases hrej : client.reject ns createdBy
        (buildPatch (getAnnotationName annotationsPrefix podName) h) with
    | some err => rw [hrej] at hp; cases hp
    | none =>
      simp only
      rw [FetchHostId_of_object _ ns createdBy annotationsPrefix podName
        (mergePatch doc (buildPatch (getAnnotationName annotationsPrefix podName) h))
        (by simp only [and_self, if_true])]
      rw [index_decodeAnnotations, annotationsOf_mergePatch]
      simp only [Json.fields, stringEntries_set_self, if_true]

/-- C2, witness: the scenario run against a store holding the group. -/
theorem FetchHostId_after_PopulateHostId_witness :
    getCassandraHostId scenarioExec "/usr/bin/nodetool" =
      ("1b4e28ba-2fa1-11d2-883f-0016d3cca427", none) ∧
    (PopulateHostId demoClient scenarioExec "/usr/bin/nodetool" "default" "cassandra"
      "cassandra" "pod-0").1 = none ∧
    (FetchHostId
      (PopulateHostId demoClient scenarioExec "/usr/bin/nodetool" "default" "cassandra"
        "cassandra" "pod-0").2
      "default" "cassandra" "cassandra" "pod-0").1 =
      ("1b4e28ba-2fa1-11d2-883f-0016d3cca427", none) :=
  ⟨by decide, by decide,
    FetchHostId_after_PopulateHostId demoClient scenarioExec "/usr/bin/nodetool" "default"
      "cassandra" "cassandra" "pod-0" "1b4e28ba-2fa1-11d2-883f-0016d3cca427"
      (by decide) (by decide)⟩

/-- C3: a successful `PopulateHostId` sends one merge patch of the shape
`{"metadata": {"annotations": {key: hostId}}}` with the single computed key, and
under merge-patch semantics it leaves every other annotation key of the group as it
was (value or absence, in the decoded map and in the stored document), leaves every
member of `metadata` other than `annotations` and every top-level member other than
`metadata` as it was, and leaves every other object of the store as it was. -/
theorem PopulateHostId_frame (client : Clientset) (exec : Exec)
    (nodetoolPath ns createdBy annotationsPrefix podName : String)
    (hp : (PopulateHostId client exec nodetoolPath ns createdBy annotationsPrefix podName).1
      = none) :
    ∃ h doc doc1,
      getCassandraHostId exec nodetoolPath = (h, none) ∧
      client.objects ns createdBy = some doc ∧
      (PopulateHostId client exec nodetoolPath ns createdBy annotationsPrefix podName).2.objects
        ns createdBy = some doc1 ∧
      (PopulateHostId client exec nodetoolPath ns createdBy annotationsPrefix podName).2.calls =
        client.calls ++ [ApiCall.get ns createdBy,
          ApiCall.patch ns createdBy .MergePatchType
            (.obj (.cons "metadata" (.obj (.cons "annotations"
              (.obj (.cons (getAnnotationName annotationsPrefix podName) (.str h) .nil))
              .nil)) .nil))] ∧
      (∀ k, k ≠ getAnnotationName annotationsPrefix podName →
        (decodeAnnotations doc1).index k = (decodeAnnotations doc).index k) ∧
      (∀ k, k ≠ getAnnotationName annotationsPrefix podName →
        (annotationsOf doc1).member k = (annotationsOf doc).member k) ∧
      (∀ g, g ≠ AnnotationsKey → (metadataOf doc1).member g = (metadataOf doc).member g) ∧
      (∀ f, f ≠ MetaDataKey → doc1.member f = doc.member f) ∧
      (∀ ns1 name1, ¬ (ns1 = ns ∧ name1 = createdBy) →
        (PopulateHostId client exec nodetoolPath ns createdBy annotationsPrefix
          podName).2.objects ns1 name1 = client.objects ns1 name1) := by
  cases hg : getCassandraHostId exec nodetoolPath with
  | mk h e =>
    cases e with
    | some err =>
      rw [PopulateHostId_of_not_extracted client exec nodetoolPath ns createdBy
        annotationsPrefix podName (by rw [hg]; simp), hg] at hp
      cases hp
    | none =>
      rw [PopulateHostId_of_extracted client exec nodetoolPath ns createdBy annotationsPrefix
        podName h hg] at hp ⊢
      cases hobj : client.objects ns createdBy with
      | none => rw [hobj] at hp; cases hp
      | some doc =>
        rw [hobj] at hp
        simp only at hp ⊢
        cases hrej : client.reject ns createdBy
            (buildPatch (getAnnotationName annotationsPrefix podName) h) with
        | some err => rw [hrej] at hp; cases hp
        | none =>
          simp only
          refine ⟨h, doc,
            mergePatch doc (buildPatch (getAnnotationName annotationsPrefix podName) h),
            rfl, rfl, by simp only [and_self, if_true], ?_, ?_, ?_, ?_, ?_, ?_⟩
          · simp only [List.append_assoc, List.singleton_append]
            rfl
          · intro k hk
            rw [index_decodeAnnotations, index_decodeAnnotations, annotationsOf_mergePatch]
            simp only [Json.fields, stringEntries_set_ne _ _ _ hk]
          · intro k hk
            rw [annotationsOf_mergePatch]
            simp only [Json.member, Json.fields, Fields.get_set_ne _ _ _ hk]
          · intro g hg1
            rw [metadataOf_mergePatch]
            simp only [Json.member, Json.fields, Fields.get_set_ne _ _ _ hg1]
          · intro f hf
            rw [mergePatch_buildPatch]
            simp only [Json.member, Json.fields, Fields.get_set_ne _ _ _ hf]
          · intro ns1 name1 hne
            simp only [hne, if_false]

/-- C3, witness: the annotation `owner` of the group is the same after the scenario run. -/
theorem PopulateHostId_frame_witness :
    (PopulateHostId demoClient scenarioExec "/usr/bin/nodetool" "default" "cassandra"
      "cassandra" "pod-0").1 = none ∧
    (decodeAnnotations demoDoc).index "owner" = ("storage-team", true) ∧
    ∃ doc1,
      (PopulateHostId demoClient scenarioExec "/usr/bin/nodetool" "default" "cassandra"
        "cassandra" "pod-0").2.objects "default" "cassandra" = some doc1 ∧
      (decodeAnnotations doc1).index "owner" = ("storage-team", true) := by
  refine ⟨by decide, by decide, ?_⟩
  obtain ⟨h, doc, doc1, -, hd, hd1, -, hk, -⟩ :=
    PopulateHostId_frame demoClient scenarioExec "/usr/bin/nodetool" "default" "cassandra"
      "cassandra" "pod-0" (by decide)
  refine ⟨doc1, hd1, ?_⟩
  have hdoc : doc = demoDoc := by
    have : demoClient.objects "default" "cassandra" = some demoDoc := rfl
    rw [this] at hd
    exact (Option.some.inj hd).symm
  rw [hk "owner" (by decide), hdoc]
  decide

/-- C10: no partial-success state is persisted.  When `PopulateHostId` returns an error
the stored objects are those of before; when the error is the one of extraction no
request was sent at all, and when it is the one of the group lookup only the read was
sent, no patch. -/
theorem PopulateHostId_error_store_unchanged (client : Clientset) (exec : Exec)
    (nodetoolPath ns createdBy annotationsPrefix podName : String) (err : GoError)
    (hp : (PopulateHostId client exec nodetoolPath ns createdBy annotationsPrefix podName).1
      = some err) :
    (PopulateHostId client exec nodetoolPath ns createdBy annotationsPrefix podName).2.objects
      = client.objects ∧
    ((getCassandraHostId exec nodetoolPath).2 ≠ none →
      (PopulateHostId client exec nodetoolPath ns createdBy annotationsPrefix podName).2.calls
        = client.calls) ∧
    ((getCassandraHostId exec nodetoolPath).2 = none → client.objects ns createdBy = none →
      (PopulateHostId client exec nodetoolPath ns createdBy annotationsPrefix podName).2.calls
        = client.calls ++ [ApiCall.get ns createdBy]) := by
  cases hg : getCassandraHostId exec nodetoolPath with
  | mk h e =>
    cases e with
    | some err1 =>
      rw [PopulateHostId_of_not_extracted client exec nodetoolPath ns createdBy
        annotationsPrefix podName (by rw [hg]; simp)]
      exact ⟨rfl, fun _ => rfl, fun h0 => by simp at h0⟩
    | none =>
      rw [PopulateHostId_of_extracted client exec nodetoolPath ns createdBy annotationsPrefix
        podName h hg] at hp ⊢
      cases hobj : client.objects ns createdBy with
      | none => exact ⟨rfl, fun h0 => absurd rfl h0, fun _ _ => rfl⟩
      | some doc =>
        rw [hobj] at hp
        simp only at hp ⊢
        cases hrej : client.reject ns createdBy
            (buildPatch (getAnnotationName annotationsPrefix podName) h) with
        | none => rw [hrej] at hp; cases hp
        | some err2 =>
          exact ⟨rfl, fun h0 => absurd rfl h0, fun _ h1 => by cases h1⟩

/-- C10, witness: extraction fails on an empty output and the store stays as it was. -/
theorem PopulateHostId_error_store_unchanged_witness :
    (PopulateHostId demoClient silentExec "/usr/bin/nodetool" "default" "cassandra"
      "cassandra" "pod-0").1 = some (.errorString "couldn't fetch Cassandra host ID") ∧
    (PopulateHostId demoClient silentExec "/usr/bin/nodetool" "default" "cassandra"
      "cassandra" "pod-0").2.objects = demoClient.objects :=
  ⟨by decide,
    (PopulateHostId_error_store_unchanged demoClient silentExec "/usr/bin/nodetool" "default"
      "cassandra" "cassandra" "pod-0" (.errorString "couldn't fetch Cassandra host ID")
      (by decide)).1⟩

end HostId
